import Mathlib

/-!
Verification of the Gopher2600 emulator core (shallow embedding).

Each section embeds one subsystem of the source tree. Go integers are
modelled as `Int` (Go `int`) or `Nat` (unsigned byte/word values, with
explicit masking where the source relies on fixed width). Go functions
that mutate a receiver are modelled as pure functions returning the new
state; functions that call out to registered observers (television
renderers) additionally return a list of events describing the calls
made. Go `error` results are modelled as `Option` of an error type.
-/

namespace Gopher2600

/-- Structured errors used by the emulator (`errors` package). Only the
distinctions needed here are modelled: the error kind and its message. -/
inductive GoErr where
  | invalidResult (msg : String)
  | validation (msg : String)
  | panicErr (msg : String)
  | plain (msg : String)
  deriving DecidableEq, Repr

/-! ## CPU execution results (`hardware/cpu/execution/validity.go`) -/

namespace execution

/-- Instruction definition data consulted by `Result.IsValid`
(`Defn` fields referenced by `validity.go`). The source's
`Defn.IsBranch()` predicate is modelled as the field `IsBranch`. -/
structure InstructionDefn where
  OpCode : Int
  Mnemonic : String
  Bytes : Int
  Cycles : Int
  PageSensitive : Bool
  IsBranch : Bool
  deriving DecidableEq, Repr

/-- The record of the last executed instruction (`execution.Result`),
restricted to the fields referenced by `Result.IsValid`. -/
structure Result where
  Defn : InstructionDefn
  ByteCount : Int
  ActualCycles : Int
  PageFault : Bool
  CPUBug : String
  Final : Bool
  deriving DecidableEq, Repr

/-- `Result.IsValid` from `validity.go` lines 30-84. The formatted
numbers inside the source's error messages are omitted; only the error
kind and the leading text are kept. -/
def Result.IsValid (result : Result) : Option GoErr :=
  if !result.Final then
    some (.invalidResult "execution not finalised (bad opcode?)")
  else if !result.Defn.PageSensitive && result.PageFault then
    some (.invalidResult "unexpected page fault")
  else if result.ByteCount != result.Defn.Bytes then
    some (.invalidResult "unexpected number of bytes read during decode")
  else if result.CPUBug == "" then
    if result.Defn.IsBranch then
      if result.ActualCycles != result.Defn.Cycles &&
         result.ActualCycles != result.Defn.Cycles + 1 &&
         result.ActualCycles != result.Defn.Cycles + 2 then
        some (.invalidResult "number of cycles wrong for branch opcode")
      else
        none
    else if result.Defn.PageSensitive then
      if result.PageFault && result.ActualCycles != result.Defn.Cycles &&
         result.ActualCycles != result.Defn.Cycles + 1 then
        some (.invalidResult "number of cycles wrong for page sensitive opcode")
      else
        none
    else if result.ActualCycles != result.Defn.Cycles then
      some (.invalidResult "number of cycles wrong for opcode")
    else
      none
  else
    none

/-- The validity condition exactly as the specification words it: byte
count equal, and the actual cycle count equals base cycles, allowing
base+1 for a page-crossed page-sensitive instruction and base+1 or
base+2 for a branch, with the cycle check skipped when a CPU bug was
flagged. Written from the spec, for comparison with `Result.IsValid`. -/
def specIsValid (r : Result) : Bool :=
  r.ByteCount == r.Defn.Bytes &&
    (r.CPUBug != "" ||
      (r.ActualCycles == r.Defn.Cycles ||
        (r.Defn.PageSensitive && r.PageFault && r.ActualCycles == r.Defn.Cycles + 1) ||
        (r.Defn.IsBranch &&
          (r.ActualCycles == r.Defn.Cycles + 1 || r.ActualCycles == r.Defn.Cycles + 2))))

/-- The validity condition actually implemented by `Result.IsValid` for
finalised results: no page fault on a page-insensitive definition, the
byte counts agree and, unless a CPU bug was flagged, the cycle count is
admissible -- for a branch any of base, base+1, base+2; for a
page-sensitive non-branch the check applies only when a page fault
occurred (base or base+1 then); otherwise exactly base. -/
def codeIsValid (r : Result) : Bool :=
  !(!r.Defn.PageSensitive && r.PageFault) &&
  r.ByteCount == r.Defn.Bytes &&
    (r.CPUBug != "" ||
      (if r.Defn.IsBranch then
        r.ActualCycles == r.Defn.Cycles || r.ActualCycles == r.Defn.Cycles + 1 ||
          r.ActualCycles == r.Defn.Cycles + 2
      else if r.Defn.PageSensitive then
        !r.PageFault || r.ActualCycles == r.Defn.Cycles ||
          r.ActualCycles == r.Defn.Cycles + 1
      else
        r.ActualCycles == r.Defn.Cycles))

end execution

/-! ## TIA sprites and HMOVE (`sprite.go`, video package) -/

namespace video

/-- The sprite state acted on by the HMOVE functions. Only the fields
those functions read or write are modelled: `currentPixel`,
`moreMovementRequired` and the normalised `horizMovement` nibble. The
source's `spriteTick` callback and the `resetFuture`/`forceReset`
bookkeeping inside `resolveHMOVE` act on the sprite's position
polycounter and its future scheduler, not on these fields, and are
abstracted away. -/
structure Sprite where
  currentPixel : Int
  moreMovementRequired : Bool
  horizMovement : Nat
  deriving DecidableEq, Repr

/-- `sprite.prepareForHMOVE`: flag the sprite for movement and move the
provisional final position 8 pixels right. No wrapping is applied. -/
def Sprite.prepareForHMOVE (sp : Sprite) : Sprite :=
  { sp with moreMovementRequired := true, currentPixel := sp.currentPixel + 8 }

/-- `compareBits`: true when any corresponding bits in the lower nibble
of the two values are the same. -/
def compareBits (a b : Nat) : Bool :=
  a &&& 0x08 == b &&& 0x08 || a &&& 0x04 == b &&& 0x04 ||
    a &&& 0x02 == b &&& 0x02 || a &&& 0x01 == b &&& 0x01

/-- The decrement-and-wrap applied to `currentPixel` by one extra HMOVE
tick (shared by `resolveHMOVE` and `forceHMOVE`). -/
def decWrap (p : Int) : Int :=
  if p - 1 < 0 then 159 else p - 1

/-- `sprite.resolveHMOVE`: gate continued movement on the 4-bit count
against the HM nibble; when movement continues, decrement
`currentPixel` with wrap from 0 back to 159. -/
def Sprite.resolveHMOVE (sp : Sprite) (count : Nat) : Sprite :=
  let more := sp.moreMovementRequired && compareBits (count &&& 0xff) (sp.horizMovement &&& 0xff)
  if more then
    { sp with moreMovementRequired := more, currentPixel := decWrap sp.currentPixel }
  else
    { sp with moreMovementRequired := more }

/-- `decWrap` applied `n` times (the `for i := 0; i < hm; i++` loop of
`forceHMOVE`). -/
def decWrapIter : Nat → Int → Int
  | 0, p => p
  | n + 1, p => decWrapIter n (decWrap p)

/-- `sprite.forceHMOVE`: apply `horizMovement - (15 - adjustment)`
immediate extra ticks, each decrementing `currentPixel` with wrap. The
loop is modelled by iterating `decWrap`. -/
def Sprite.forceHMOVE (sp : Sprite) (adjustment : Int) : Sprite :=
  let hm := (sp.horizMovement : Int) - (15 - adjustment)
  { sp with currentPixel := decWrapIter hm.toNat sp.currentPixel }

end video

/-! ## Memory map and buses (`hardware/memory/memory.go`) -/

namespace memory

/-- The four memory areas (`memorymap.Area`). -/
inductive Area where
  | TIA
  | PIA
  | RIOT
  | Cartridge
  deriving DecidableEq, Repr

/-- Modelled from the spec: `memorymap.MapAddress` is not among the
provided sources. §3 (C3) of the specification: the 13-bit CPU bus
mirrors into four non-overlapping areas, read and write maps differing
for the TIA. Mapped addresses keep their area's origin: TIA registers
at 0x00.. (reads mirror into 16 addresses, writes into 64), PIA RAM at
0x80..0xff, RIOT registers at 0x280.., the cartridge window at
0x1000..0x1fff. -/
def MapAddress (address : Nat) (read : Bool) : Nat × Area :=
  let address := address &&& 0x1fff
  if address &&& 0x1000 = 0x1000 then
    (address, Area.Cartridge)
  else if address &&& 0x284 = 0x284 then
    (0x280 ||| (address &&& 0x7), Area.RIOT)
  else if address &&& 0x280 = 0x80 then
    (0x80 ||| (address &&& 0x7f), Area.PIA)
  else if read then
    (address &&& 0xf, Area.TIA)
  else
    (address &&& 0x3f, Area.TIA)

/-- Modelled from the spec: `addresses.DataMasks` is not among the
provided sources. The spec describes a partially populated per-address
open-bus mask table for reads; the populated entries cover the TIA read
registers -- the collision latches (two latched bits, b7/b6) and the
input ports (one latched bit, b7). -/
def DataMasks : List Nat :=
  [0xc0, 0xc0, 0xc0, 0xc0, 0xc0, 0xc0, 0xc0, 0xc0,
   0x80, 0x80, 0x80, 0x80, 0x80, 0x80]

/-- Errors a cartridge `Listen` (or an area write) can report. All
errors created through the emulator's `errors` package are
`AtariError`s; `external` stands for any other Go error value. -/
inductive WErr where
  | atari (errno : String)
  | external (msg : String)
  deriving DecidableEq, Repr

/-- The bus activity performed by a CPU read or write, in order. -/
inductive MemEvent where
  | listen (address data : Nat)
  | areaWrite (area : Area) (ma data : Nat)
  | areaRead (area : Area) (ma : Nat)
  deriving DecidableEq, Repr

/-- `VCSMemory`, restricted to what `Read`/`Write` use. The four memory
areas' own bus implementations are not among the provided sources, so
the chip side is abstracted: `areaData` gives the byte an area's
`CPUBus.Read` returns for a local address, `areaWriteErr` the error its
`CPUBus.Write` returns, and `listenErr` the result of
`Cart.Listen`. -/
structure VCSMemory where
  areaData : Area → Nat → Nat
  areaWriteErr : Area → Nat → Nat → Option WErr
  listenErr : Nat → Nat → Option WErr
  LastAccessAddress : Nat
  LastAccessValue : Nat
  LastAccessWrite : Bool
  LastAccessID : Int
  accessCount : Int

/-- `VCSMemory.Read` (memory.go lines 100-134): map the address, read
the area, then apply the open-bus data mask when the mapped address has
a mask entry -- bits cleared in the mask are taken from the high byte
of the bus address when the address is above 0xff, and from its low
byte otherwise. -/
def VCSMemory.Read (mem : VCSMemory) (address : Nat) :
    Nat × VCSMemory × List MemEvent :=
  let (ma, ar) := MapAddress address true
  let data := mem.areaData ar ma
  let data :=
    if ma < DataMasks.length then
      let mask := DataMasks.getD ma 0
      if 0xff < address then
        (data &&& mask) ||| (((address >>> 8) &&& 0xff) &&& (mask ^^^ 0xff))
      else
        (data &&& mask) ||| ((address &&& 0xff) &&& (mask ^^^ 0xff))
    else data
  (data,
   { mem with LastAccessAddress := ma, LastAccessWrite := false,
              LastAccessValue := data, LastAccessID := mem.accessCount,
              accessCount := mem.accessCount + 1 },
   [MemEvent.areaRead ar ma])

/-- The read result the specification's words describe: chip bits where
the mask is set, bits of the floating high byte of the bus address
where the mask is cleared; chip data unchanged when there is no mask
entry. Written from the spec, for comparison with `VCSMemory.Read`. -/
def specReadData (mem : VCSMemory) (address : Nat) : Nat :=
  let (ma, ar) := MapAddress address true
  let data := mem.areaData ar ma
  if ma < DataMasks.length then
    let mask := DataMasks.getD ma 0
    (data &&& mask) ||| (((address >>> 8) &&& 0xff) &&& (mask ^^^ 0xff))
  else data

/-- The byte whose bits fill the open-bus positions in the result
actually computed by `VCSMemory.Read`: the high byte of the bus address
for addresses above 0xff, the low byte otherwise. -/
def openBusByte (address : Nat) : Nat :=
  if 0xff < address then (address >>> 8) &&& 0xff else address &&& 0xff

/-- `VCSMemory.Write` (memory.go lines 137-165): map the address,
record the access, give the cartridge's `Listen` the original
(pre-mapping) bus address, discard any `AtariError` it reports, and
proceed with the write to the mapped area. -/
def VCSMemory.Write (mem : VCSMemory) (address data : Nat) :
    Option WErr × VCSMemory × List MemEvent :=
  let (ma, ar) := MapAddress address false
  let mem := { mem with LastAccessAddress := ma, LastAccessWrite := true,
                        LastAccessValue := data, LastAccessID := mem.accessCount,
                        accessCount := mem.accessCount + 1 }
  match mem.listenErr address data with
  | some (.external m) => (some (.external m), mem, [MemEvent.listen address data])
  | _ =>
    (mem.areaWriteErr ar ma data, mem,
     [MemEvent.listen address data, MemEvent.areaWrite ar ma data])

end memory

/-! ## Television receiver (`BasicTelevision`) -/

namespace television

/-- The television specification consulted by `BasicTelevision.Signal`.
Modelled from the spec: the `Specification` definition for this
revision of the television package is not among the provided sources;
§3 (C8) of the specification names its fields -- horizontal clocks per
hblank/visible portion, total scanlines, the VSYNC duration threshold
and the ideal visible top/bottom scanlines. -/
structure Specification where
  ClocksPerHblank : Int
  ClocksPerVisible : Int
  ScanlinesTotal : Int
  VsyncClocks : Int
  IdealTop : Int
  IdealBottom : Int
  deriving DecidableEq, Repr

/-- NTSC values, modelled from the spec: 228 clocks per scanline split
as 68 hblank + 160 visible, 262 scanlines total, 3 scanlines of VSYNC
(3 x 228 color-clocks), ideal visible portion from the programmer's
guide (top = 3 + 37, bottom = 262 - 30). -/
def SpecNTSC : Specification :=
  { ClocksPerHblank := 68, ClocksPerVisible := 160, ScanlinesTotal := 262,
    VsyncClocks := 3 * 228, IdealTop := 40, IdealBottom := 232 }

/-- `SignalAttributes`: the per-color-clock signal sent by the VCS to
the television. Pixel colors are carried as raw color signals. -/
structure SignalAttributes where
  VSync : Bool := false
  VBlank : Bool := false
  FrontPorch : Bool := false
  HSync : Bool := false
  CBurst : Bool := false
  Pixel : Nat := 0
  AltPixel : Nat := 0
  deriving DecidableEq, Repr

/-- Errors returned by `BasicTelevision.Signal`. -/
inductive TVErr where
  | outOfSpecErr (msg : String)
  deriving DecidableEq, Repr

/-- A call made by `Signal` on a registered renderer. The renderer is
identified by its index in the `renderers` list; renderers are
modelled as pure (never returning an error). `setPixel`/`setAltPixel`
carry the raw color signal in place of the decoded RGB triple. -/
inductive TVEvent where
  | newFrame (renderer : Nat) (frameNum : Int)
  | newScanline (renderer : Nat) (scanline : Int)
  | setPixel (renderer : Nat) (x y : Int) (pixel : Nat) (vblank : Bool)
  | setAltPixel (renderer : Nat) (x y : Int) (pixel : Nat) (vblank : Bool)
  deriving DecidableEq, Repr

/-- The state of `BasicTelevision`. The renderer list is modelled by
its length (`numRenderers`); renderer calls are reported as events. -/
structure TVState where
  spec : Specification
  outOfSpec : Bool
  endOfScreen : Bool
  horizPos : Int
  frameNum : Int
  scanline : Int
  prevSignal : SignalAttributes
  vsyncCount : Int
  visibleTop : Int
  visibleBottom : Int
  pendingVisibleTop : Int
  pendingVisibleBottom : Int
  numRenderers : Nat
  deriving DecidableEq, Repr

/-- The state of a `BasicTelevision` just after `NewBasicTelevision`
(which zeroes the counters and then calls `Reset`). -/
def newBasicTelevision (spec : Specification) (numRenderers : Nat) : TVState :=
  { spec := spec, outOfSpec := false, endOfScreen := false,
    horizPos := -spec.ClocksPerHblank, frameNum := 0, scanline := 0,
    prevSignal := {}, vsyncCount := 0,
    visibleTop := 0, visibleBottom := 0,
    pendingVisibleTop := spec.IdealTop, pendingVisibleBottom := spec.IdealBottom,
    numRenderers := numRenderers }

/-- The HSYNC/CBURST edge checks at the top of `Signal` (part_003 lines
142-159). An edge landing outside its documented window makes `Signal`
return an `OutOfSpec` error immediately. -/
def edgeError (btv : TVState) (sig : SignalAttributes) : Option TVErr :=
  if sig.HSync && !btv.prevSignal.HSync &&
      (btv.horizPos < -52 || btv.horizPos > -49) then
    some (.outOfSpecErr ("bad HSYNC (on at " ++ toString btv.horizPos ++ ")"))
  else if !sig.HSync && btv.prevSignal.HSync &&
      (btv.horizPos < -36 || btv.horizPos > -33) then
    some (.outOfSpecErr ("bad HSYNC (off at " ++ toString btv.horizPos ++ ")"))
  else if sig.CBurst && !btv.prevSignal.CBurst &&
      (btv.horizPos < -28 || btv.horizPos > -17) then
    some (.outOfSpecErr ("bad CBURST (on at " ++ toString btv.horizPos ++ ")"))
  else if !sig.CBurst && btv.prevSignal.CBurst &&
      (btv.horizPos < -19 || btv.horizPos > -16) then
    some (.outOfSpecErr ("bad CBURST (off at " ++ toString btv.horizPos ++ ")"))
  else
    none

/-- The "simple implementation of vsync" block of `Signal` (lines
162-187): a sustained VSYNC commits the frame when the signal drops. -/
def vsyncStage (btv : TVState) (sig : SignalAttributes) : TVState × List TVEvent :=
  if sig.VSync then
    ({ btv with vsyncCount := btv.vsyncCount + 1 }, [])
  else if btv.spec.VsyncClocks ≤ btv.vsyncCount then
    ({ btv with
        outOfSpec := btv.vsyncCount != btv.spec.VsyncClocks,
        endOfScreen := false,
        frameNum := btv.frameNum + 1,
        scanline := 0,
        vsyncCount := 0,
        visibleTop := btv.pendingVisibleTop,
        visibleBottom := btv.pendingVisibleBottom,
        pendingVisibleTop := btv.spec.IdealTop,
        pendingVisibleBottom := btv.spec.IdealBottom },
     (List.range btv.numRenderers).map (fun r => TVEvent.newFrame r (btv.frameNum + 1)))
  else
    (btv, [])

/-- The FRONTPORCH/horizontal-position block of `Signal` (lines
189-215): FRONTPORCH starts a new scanline; otherwise the horizontal
position advances, erroring past `ClocksPerVisible`. -/
def frontPorchStage (btv : TVState) (sig : SignalAttributes) :
    TVState × List TVEvent × Option TVErr :=
  if sig.FrontPorch then
    let btv := { btv with horizPos := -btv.spec.ClocksPerHblank,
                          scanline := btv.scanline + 1 }
    let evs := (List.range btv.numRenderers).map
      (fun r => TVEvent.newScanline r btv.scanline)
    let btv := if btv.spec.ScanlinesTotal < btv.scanline then
        { btv with outOfSpec := true, endOfScreen := true }
      else btv
    (btv, evs, none)
  else
    let btv := { btv with horizPos := btv.horizPos + 1 }
    if btv.spec.ClocksPerVisible < btv.horizPos then
      (btv, [], some (.outOfSpecErr "no FRONTPORCH"))
    else
      (btv, [], none)

/-- The screen-limit learning block of `Signal` (lines 217-235). -/
def visibleLimitsStage (btv : TVState) (sig : SignalAttributes) : TVState :=
  if !sig.VBlank then
    let btv := if btv.endOfScreen && btv.pendingVisibleBottom < btv.scanline then
        { btv with pendingVisibleBottom := min (btv.scanline + 2) btv.spec.ScanlinesTotal }
      else btv
    if btv.scanline < btv.pendingVisibleTop then
      { btv with pendingVisibleTop := max (btv.scanline - 2) 0 }
    else btv
  else btv

/-- The pixel-emission block of `Signal` (lines 240-262): pixels are
sent to every renderer unless the end of screen has been reached. -/
def pixelStage (btv : TVState) (sig : SignalAttributes) : List TVEvent :=
  if !btv.endOfScreen then
    let x := btv.horizPos + btv.spec.ClocksPerHblank
    let y := btv.scanline
    (List.range btv.numRenderers).map
        (fun r => TVEvent.setPixel r x y sig.Pixel sig.VBlank)
      ++ (List.range btv.numRenderers).map
        (fun r => TVEvent.setAltPixel r x y sig.AltPixel sig.VBlank)
  else []

/-- `BasicTelevision.Signal` (part_003 lines 141-265), composed from
its blocks. An early error return leaves the state exactly as the Go
code leaves the receiver at that point: the edge checks mutate nothing;
the "no FRONTPORCH" error occurs after the horizontal position has
already been incremented. -/
def Signal (btv : TVState) (sig : SignalAttributes) :
    TVState × List TVEvent × Option TVErr :=
  match edgeError btv sig with
  | some e => (btv, [], some e)
  | none =>
    let s1 := vsyncStage btv sig
    match frontPorchStage s1.1 sig with
    | (btv2, evs2, some e) => (btv2, s1.2 ++ evs2, some e)
    | (btv2, evs2, none) =>
      let btv3 := visibleLimitsStage btv2 sig
      let btv4 := { btv3 with prevSignal := sig }
      let evs3 := pixelStage btv4 sig
      (btv4, s1.2 ++ evs2 ++ evs3, none)

/-- Run `Signal` over a list of signals, stopping at the first error
(as the emulator does when a `Signal` call fails). -/
def signalRun (btv : TVState) : List SignalAttributes →
    TVState × List TVEvent × Option TVErr
  | [] => (btv, [], none)
  | sig :: rest =>
    match Signal btv sig with
    | (btv1, evs, some e) => (btv1, evs, some e)
    | (btv1, evs, none) =>
      let r := signalRun btv1 rest
      (r.1, evs ++ r.2.1, r.2.2)

/-- Is this event a `NewFrame` call on renderer `r`? -/
def isNewFrameFor (r : Nat) : TVEvent → Bool
  | .newFrame r' _ => r' == r
  | _ => false

/-- Is this event a `NewFrame` call on any renderer? -/
def isNewFrame : TVEvent → Bool
  | .newFrame _ _ => true
  | _ => false

/-- Number of `NewFrame` calls received by renderer `r` in `evs`. -/
def newFrameCount (r : Nat) (evs : List TVEvent) : Nat :=
  (evs.filter (isNewFrameFor r)).length

end television

/-! ## 16-bit registers (`hardware/cpu/registers/r16bit`)

Modelled from the spec: the r16bit implementation itself is not among
the provided sources (only its test is); §4.1 of the specification
gives the contract: an n-bit unsigned cell, all operations modulo 2^n,
6502 carry semantics, fixed-width binary printing. -/

namespace r16bit

/-- An n-bit register cell. Invariant: only the low `width` bits are
observable (`value < 2 ^ width`). -/
structure Register where
  value : Nat
  width : Nat
  deriving DecidableEq, Repr

/-- Modelled from the spec: `Generate(initialValue, widthBits)`. -/
def Generate (v w : Nat) : Register :=
  { value := v % 2 ^ w, width := w }

/-- Modelled from the spec: loading stores `v mod 2^n`. -/
def Register.Load (r : Register) (v : Nat) : Register :=
  { r with value := v % 2 ^ r.width }

/-- Modelled from the spec: add-with-carry modulo 2^n, returning the
carry out of the top bit. -/
def Register.Add (r : Register) (v : Nat) (carryIn : Bool) : Register × Bool :=
  let sum := r.value + v % 2 ^ r.width + (if carryIn then 1 else 0)
  ({ r with value := sum % 2 ^ r.width }, decide (2 ^ r.width ≤ sum))

/-- Modelled from the spec: fixed-width binary representation, most
significant bit first. -/
def Register.binaryString (r : Register) : String :=
  String.mk ((List.range r.width).reverse.map
    (fun i => if r.value / 2 ^ i % 2 = 1 then '1' else '0'))

end r16bit

/-! ## Command-line validation (`debugger/terminal/commandline/validation.go`) -/

namespace commandline

/-- The token queue (`Tokens`). Modelled from the spec: the `Tokens`
implementation is not among the provided sources; `validation.go` uses
it through `Peek`, `Get`, `Unget`, `Update`, `Remaining` and
`Remainder`, whose behavior (a cursor over a tokenised input) follows
from those call sites. -/
structure Tokens where
  tokens : List String
  curr : Nat
  deriving DecidableEq, Repr

/-- `Peek`: the token at the cursor, without advancing. -/
def Tokens.Peek (t : Tokens) : Option String :=
  t.tokens.get? t.curr

/-- `Get`: the token at the cursor, advancing past it. -/
def Tokens.Get (t : Tokens) : Option String × Tokens :=
  match t.tokens.get? t.curr with
  | some s => (some s, { t with curr := t.curr + 1 })
  | none => (none, t)

/-- `Unget`: push the most recently taken token back onto the queue. -/
def Tokens.Unget (t : Tokens) : Tokens :=
  { t with curr := t.curr - 1 }

/-- `Update`: replace the most recently taken token. -/
def Tokens.Update (t : Tokens) (s : String) : Tokens :=
  { t with tokens := t.tokens.set (t.curr - 1) s }

/-- `Remaining`: how many tokens are left in the queue. -/
def Tokens.Remaining (t : Tokens) : Nat :=
  t.tokens.length - t.curr

/-- `Remainder`: the tokens left in the queue. -/
def Tokens.Remainder (t : Tokens) : List String :=
  t.tokens.drop t.curr

/-- Split a character list on spaces (empty fields dropped later). -/
def splitSpaces : List Char → List (List Char)
  | [] => [[]]
  | ' ' :: rest => [] :: splitSpaces rest
  | c :: rest =>
    match splitSpaces rest with
    | [] => [[c]]
    | w :: ws => (c :: w) :: ws

/-- Modelled from the spec: `TokeniseInput` is not among the provided
sources; for unquoted input it splits on whitespace. -/
def TokeniseInput (input : String) : Tokens :=
  { tokens := ((splitSpaces input.toList).map String.mk).filter (fun s => s ≠ ""),
    curr := 0 }

/-- ASCII upper-casing of one character (Go `strings.ToUpper` on the
ASCII inputs used here). -/
def upChar (c : Char) : Char :=
  if 'a' ≤ c && c ≤ 'z' then Char.ofNat (c.toNat - 32) else c

/-- ASCII upper-casing of a string. -/
def upStr (s : String) : String :=
  String.mk (s.toList.map upChar)

/-- ASCII decimal digit test (code points 0x30-0x39). -/
def isDigitCh (c : Char) : Bool := 0x30 ≤ c.toNat && c.toNat ≤ 0x39

/-- Value of an ASCII digit character in the given base, if valid:
decimal digits, then the hex letter ranges (lower case at 0x61, upper
case at 0x41), rejected when at or above the base. -/
def digitVal (base : Nat) (c : Char) : Option Nat :=
  let n := c.toNat
  let v : Option Nat :=
    if 0x30 ≤ n && n ≤ 0x39 then some (n - 0x30)
    else if 0x61 ≤ n && n ≤ 0x66 then some (n - 0x57)
    else if 0x41 ≤ n && n ≤ 0x46 then some (n - 0x37)
    else none
  match v with
  | some v => if v < base then some v else none
  | none => none

/-- Fold a digit string in the given base. -/
def parseDigits (base : Nat) (cs : List Char) : Option Nat :=
  cs.foldl (fun acc c =>
    match acc, digitVal base c with
    | some a, some d => some (a * base + d)
    | _, _ => none) (some 0)

/-- Modelled from Go's `strconv.ParseInt(tok, 0, 32)` as used for the
`%N` placeholder: optional sign, then a base prefix (`0x`/`0X` hex,
`0b`/`0B` binary, `0o`/`0O` or a plain leading `0` octal, decimal
otherwise), at least one digit, and the value must fit in 32 bits. -/
def parseIntGo (tok : String) : Bool :=
  let cs := tok.toList
  let (neg, cs) :=
    match cs with
    | '+' :: rest => (false, rest)
    | '-' :: rest => (true, rest)
    | _ => (false, cs)
  let (base, cs) :=
    match cs with
    | '0' :: 'x' :: rest => (16, rest)
    | '0' :: 'X' :: rest => (16, rest)
    | '0' :: 'b' :: rest => (2, rest)
    | '0' :: 'B' :: rest => (2, rest)
    | '0' :: 'o' :: rest => (8, rest)
    | '0' :: 'O' :: rest => (8, rest)
    | '0' :: c :: rest => (8, c :: rest)
    | _ => (10, cs)
  match cs with
  | [] => false
  | _ =>
    match parseDigits base cs with
    | none => false
    | some v => if neg then v ≤ 2 ^ 31 else v < 2 ^ 31

/-- Modelled from Go's `strconv.ParseFloat(tok, 32)` as used for the
`%P` placeholder: optional sign, digits with at most one decimal point
(at least one digit), optional exponent. Range is not modelled. -/
def parseFloatGo (tok : String) : Bool :=
  let cs := tok.toList
  let cs := match cs with
    | '+' :: rest => rest
    | '-' :: rest => rest
    | _ => cs
  let (mantissa, rest) := cs.span (fun c => isDigitCh c || c = '.')
  (mantissa.filter isDigitCh).length > 0 &&
    (mantissa.filter (fun c => c = '.')).length ≤ 1 &&
    (match rest with
     | [] => true
     | e :: rest =>
       (e = 'e' || e = 'E') &&
         (let rest := match rest with
            | '+' :: r => r
            | '-' :: r => r
            | _ => rest
          rest ≠ [] && rest.all isDigitCh)
     )

/-- The node types of the parsed command template. -/
inductive NodeType where
  | root
  | required
  | optional
  deriving DecidableEq, Repr

/-- A parsed command-template node: its (normalised) tag, its type, the
nodes that follow it, its alternative branches and its repeat node. -/
inductive CNode where
  | mk (tag : String) (typ : NodeType) (next : List CNode)
       (branch : List CNode) (rep : Option CNode)

def CNode.tag : CNode → String
  | .mk t _ _ _ _ => t

def CNode.typ : CNode → NodeType
  | .mk _ ty _ _ _ => ty

def CNode.next : CNode → List CNode
  | .mk _ _ nx _ _ => nx

def CNode.branch : CNode → List CNode
  | .mk _ _ _ br _ => br

def CNode.rep : CNode → Option CNode
  | .mk _ _ _ _ rp => rp

/-- Errors produced inside `node.validate`: plain `fmt.Errorf` errors,
or structured `AtariError`s (the `PanicError` for illegal nodes). -/
inductive VErr where
  | plainV (msg : String)
  | panicV (msg : String)
  deriving DecidableEq, Repr

/-- The `for bi := range n.branch` loops of `node.validate`: `Unget`
then speculatively validate each branch, stopping at the first match.
The token queue keeps any mutation made by failing attempts, exactly as
the Go code's in-place mutation does. -/
def branchLoop (validate : CNode → Tokens → Option VErr × Tokens) :
    List CNode → Tokens → Bool × Tokens
  | [], tokens => (false, tokens)
  | b :: bs, tokens =>
    let tokens := tokens.Unget
    match validate b tokens with
    | (none, tokens') => (true, tokens')
    | (some _, tokens') => branchLoop validate bs tokens'

/-- The `for ni := range n.next` loop of `node.validate`: validate each
following node, returning the first error. -/
def nextLoop (validate : CNode → Tokens → Option VErr × Tokens) :
    List CNode → Tokens → Option VErr × Tokens
  | [], tokens => (none, tokens)
  | nx :: rest, tokens =>
    match validate nx tokens with
    | (some e, tokens') => (some e, tokens')
    | (none, tokens') => nextLoop validate rest tokens'

/-- `node.validate` (validation.go lines 76-266). The recursion is
bounded by `fuel` because the Go `repeat` pointer makes the node graph
cyclic; exhausted fuel reports a `PanicError`, which no evaluation in
this file reaches. Token-queue mutation is threaded explicitly. -/
def nodeValidate : Nat → CNode → Tokens → Bool → Option VErr × Tokens
  | 0, _, tokens, _ => (some (.panicV "recursion limit"), tokens)
  | fuel + 1, n, tokens, speculative =>
    if n.tag = "" then
      -- empty tags happen as a result of parsing nested groups
      match n.next with
      | [next0] =>
        let (err, tokens) := nodeValidate fuel next0 tokens true
        match err with
        | none => (none, tokens)
        | some e =>
          let (matched, tokens) :=
            branchLoop (fun b tk => nodeValidate fuel b tk true) n.branch tokens
          if matched then (none, tokens) else (some e, tokens)
      | _ => (some (.panicV "commandline validation: illegal empty node"), tokens)
    else
      let remainder := tokens.Remainder
      let (tokOpt, tokens) := tokens.Get
      match tokOpt with
      | none =>
        if n.typ = .required || n.typ = .root then
          (some (.plainV (n.tag ++ " required")), tokens)
        else
          (none, tokens)
      | some tok =>
        -- check the token against the node's tag, with placeholder matching
        let (matched, tentativeMatch, tokens) :=
          if n.tag = "%N" then
            let tok := match tok.toList with
              | '$' :: rest => String.mk ('0' :: 'x' :: rest)
              | _ => tok
            let tokens := tokens.Update tok
            (parseIntGo tok, false, tokens)
          else if n.tag = "%P" then
            (parseFloatGo tok, false, tokens)
          else if n.tag = "%S" then
            (n.branch.isEmpty, true, tokens)
          else if n.tag = "%F" then
            (n.branch.isEmpty, true, tokens)
          else
            let tok := upStr tok
            if tok = n.tag then (true, false, tokens.Update tok)
            else (false, false, tokens)
        let branchResult :=
          if !matched && !n.branch.isEmpty then
            let (bMatched, tokens') :=
              branchLoop (fun b tk => nodeValidate fuel b tk true) n.branch tokens
            if bMatched then none
            else some (tentativeMatch, tokens')
          else
            some (matched, tokens)
        match branchResult with
        | none => (none, tokens)  -- a branch matched: return nil immediately
        | some (matched, tokens) =>
          let afterMatch :=
            if !matched then
              -- err := "unrecognised argument (tok)"; returned below when
              -- speculative or when the node is not optional
              if speculative then none
              else if n.typ ≠ .optional then none
              else some tokens.Unget
            else some tokens
          match afterMatch, matched with
          | none, _ => (some (.plainV ("unrecognised argument (" ++ tok ++ ")")), tokens)
          | some tokens, _ =>
            let (err, tokens) :=
              nextLoop (fun nx tk => nodeValidate fuel nx tk false) n.next tokens
            match err with
            | some e => (some e, tokens)
            | none =>
              match n.rep with
              | some rp =>
                if remainder ≠ tokens.Remainder then
                  nodeValidate fuel rp tokens false
                else (none, tokens)
              | none => (none, tokens)

/-- The parsed command templates (`Commands`): the root node of each
command, and the designated help command tag. -/
structure Commands where
  cmds : List CNode
  helpCommand : String

/-- The command-lookup loop of `ValidateTokens`: find the root node
whose tag is the (upper-cased) first token. -/
def findCommand (cmd : String) : List CNode → Option CNode
  | [] => none
  | n :: rest => if cmd = n.tag then some n else findCommand cmd rest

/-- `Commands.ValidateTokens` (validation.go lines 37-74): find the
command, validate against its node tree (wrapping plain errors as
`ValidationError`, preserving `AtariError`s), then reject outstanding
tokens. -/
def Commands.ValidateTokens (cmds : Commands) (tokens : Tokens) : Option GoErr :=
  match tokens.Peek with
  | none => none
  | some cmd0 =>
    let cmd := upStr cmd0
    match findCommand cmd cmds.cmds with
    | none => some (.plain ("unrecognised command (" ++ cmd ++ ")"))
    | some n =>
      match nodeValidate 1000 n tokens false with
      | (some (.panicV m), _) => some (.panicErr m)
      | (some (.plainV m), _) => some (.validation m)
      | (none, tokens) =>
        if 0 < tokens.Remaining then
          let (argOpt, _) := tokens.Get
          let arg := argOpt.getD ""
          if cmd = cmds.helpCommand then
            some (.validation ("no help for " ++ upStr arg))
          else
            some (.validation ("unrecognised argument (" ++ arg ++ ") for " ++ cmd))
        else none

/-- `Commands.Validate`. -/
def Commands.Validate (cmds : Commands) (input : String) : Option GoErr :=
  cmds.ValidateTokens (TokeniseInput input)

/-- Modelled from the spec: the node tree `ParseCommandTemplate`
produces for the template `"TEST (arg [%N]|foo)"` -- a root node
`TEST` followed by an optional group whose first alternative is `ARG`
(with the required numeric argument `%N` following it) and whose other
alternative is `FOO`. Tags are normalised to upper case by the
parser. -/
def cmdsTEST : Commands :=
  { cmds := [.mk "TEST" .root
      [.mk "ARG" .optional
        [.mk "%N" .required [] [] none]
        [.mk "FOO" .optional [] [] none]
        none]
      [] none],
    helpCommand := "HELP" }

end commandline

/-! ## Color palettes (`television/colors/32bit.go`) -/

namespace colors

/-- An RGB triple. -/
structure RGB where
  red : Nat
  green : Nat
  blue : Nat
  deriving DecidableEq, Repr

/-- The raw NTSC color values (`ntsc32bit`). -/
def ntsc32bit : List Nat :=
  [0x000000, 0x404040, 0x6c6c6c, 0x909090, 0xb0b0b0, 0xc8c8c8, 0xdcdcdc, 0xececec,
   0x444400, 0x646410, 0x848424, 0xa0a034, 0xb8b840, 0xd0d050, 0xe8e85c, 0xfcfc68,
   0x702800, 0x844414, 0x985c28, 0xac783c, 0xbc8c4c, 0xcca05c, 0xdcb468, 0xecc878,
   0x841800, 0x983418, 0xac5030, 0xc06848, 0xd0805c, 0xe09470, 0xeca880, 0xfcbc94,
   0x880000, 0x9c2020, 0xb03c3c, 0xc05858, 0xd07070, 0xe08888, 0xeca0a0, 0xfcb4b4,
   0x78005c, 0x8c2074, 0xa03c88, 0xb0589c, 0xc070b0, 0xd084c0, 0xdc9cd0, 0xecb0e0,
   0x480078, 0x602090, 0x783ca4, 0x8c58b8, 0xa070cc, 0xb484dc, 0xc49cec, 0xd4b0fc,
   0x140084, 0x302098, 0x4c3cac, 0x6858c0, 0x7c70d0, 0x9488e0, 0xa8a0ec, 0xbcb4fc,
   0x000088, 0x1c209c, 0x3840b0, 0x505cc0, 0x6874d0, 0x7c8ce0, 0x90a4ec, 0xa4b8fc,
   0x00187c, 0x1c3890, 0x3854a8, 0x5070bc, 0x6888cc, 0x7c9cdc, 0x90b4ec, 0xa4c8fc,
   0x002c5c, 0x1c4c78, 0x386890, 0x5084ac, 0x689cc0, 0x7cb4d4, 0x90cce8, 0xa4e0fc,
   0x003c2c, 0x1c5c48, 0x387c64, 0x509c80, 0x68b494, 0x7cd0ac, 0x90e4c0, 0xa4fcd4,
   0x003c00, 0x205c20, 0x407c40, 0x5c9c5c, 0x74b474, 0x8cd08c, 0xa4e4a4, 0xb8fcb8,
   0x143800, 0x345c1c, 0x507c38, 0x6c9850, 0x84b468, 0x9ccc7c, 0xb4e490, 0xc8fca4,
   0x2c3000, 0x4c501c, 0x687034, 0x848c4c, 0x9ca864, 0xb4c078, 0xccd488, 0xe0ec9c,
   0x442800, 0x644818, 0x846830, 0xa08444, 0xb89c58, 0xd0b46c, 0xe8cc7c, 0xfce08c]

/-- The raw PAL color values (`pal32bit`). -/
def pal32bit : List Nat :=
  [0x000000, 0x282828, 0x505050, 0x747474, 0x949494, 0xb4b4b4, 0xd0d0d0, 0xececec,
   0x000000, 0x282828, 0x505050, 0x747474, 0x949494, 0xb4b4b4, 0xd0d0d0, 0xececec,
   0x805800, 0x947020, 0xa8843c, 0xbc9c58, 0xccac70, 0xdcc084, 0xecd09c, 0xfce0b0,
   0x445c00, 0x5c7820, 0x74903c, 0x8cac58, 0xa0c070, 0xb0d484, 0xc4e89c, 0xd4fcb0,
   0x703400, 0x885020, 0xa0683c, 0xb48458, 0xc89870, 0xdcac84, 0xecc09c, 0xfcd4b0,
   0x006414, 0x208034, 0x3c9850, 0x58b06c, 0x70c484, 0x84d89c, 0x9ce8b4, 0xb0fcc8,
   0x700014, 0x882034, 0xa03c50, 0xb4586c, 0xc87084, 0xdc849c, 0xec9cb4, 0xfcb0c8,
   0x005c5c, 0x207474, 0x3c8c8c, 0x58a4a4, 0x70b8b8, 0x84c8c8, 0x9cdcdc, 0xb0ecec,
   0x70005c, 0x842074, 0x943c88, 0xa8589c, 0xb470b0, 0xc484c0, 0xd09cd0, 0xe0b0e0,
   0x003c70, 0x1c5888, 0x3874a0, 0x508cb4, 0x68a4c8, 0x7cb8dc, 0x90ccec, 0xa4e0fc,
   0x580070, 0x6c2088, 0x803ca0, 0x9458b4, 0xa470c8, 0xb484dc, 0xc49cec, 0xd4b0fc,
   0x002070, 0x1c3c88, 0x3858a0, 0x5074b4, 0x6888c8, 0x7ca0dc, 0x90b4ec, 0xa4c8fc,
   0x3c0080, 0x542094, 0x6c3ca8, 0x8058bd, 0x9470cc, 0xa884dc, 0xb89cec, 0xc8b0fc,
   0x000088, 0x20209c, 0x3c3cb0, 0x5858c0, 0x7070d0, 0x8484e0, 0x9c9cec, 0xb0b0fc,
   0x000000, 0x282828, 0x505050, 0x747474, 0x949494, 0xb4b4b4, 0xd0d0d0, 0xececec,
   0x000000, 0x282828, 0x505050, 0x747474, 0x949494, 0xb4b4b4, 0xd0d0d0, 0xececec]

/-- Split a raw 32-bit color value into its RGB components, as the
`init` function does. -/
def rgbOf (col : Nat) : RGB :=
  { red := (col &&& 0xff0000) >>> 16,
    green := (col &&& 0xff00) >>> 8,
    blue := col &&& 0xff }

/-- The palette-building loop of `init`: each raw color is appended to
the palette twice. -/
def buildPalette (raw : List Nat) : List RGB :=
  raw.foldl (fun acc col => acc ++ [rgbOf col, rgbOf col]) []

/-- `PaletteNTSC`, as constructed at start-up. -/
def PaletteNTSC : List RGB := buildPalette ntsc32bit

/-- `PalettePAL`, as constructed at start-up. -/
def PalettePAL : List RGB := buildPalette pal32bit

/-- Each element twice, in order: the shape of the palette-building
loop. -/
def dup {α : Type} : List α → List α
  | [] => []
  | x :: xs => x :: x :: dup xs

end colors

/-! ## Concrete evaluation inputs used by the theorems below -/

namespace execution

/-- A finalised result for a page-sensitive, non-branch instruction
(LDA (zp),Y) that read the right number of bytes but took four cycles
too many, without a page fault and without a CPU bug. -/
def oddCyclesResult : Result :=
  { Defn := { OpCode := 0xb1, Mnemonic := "LDA", Bytes := 2, Cycles := 5,
              PageSensitive := true, IsBranch := false },
    ByteCount := 2, ActualCycles := 9, PageFault := false,
    CPUBug := "", Final := true }

end execution

namespace memory

/-- A memory state whose chips all return zero on reads and whose
writes and cartridge `Listen` report nothing. -/
def zeroMem : VCSMemory :=
  { areaData := fun _ _ => 0, areaWriteErr := fun _ _ _ => none,
    listenErr := fun _ _ => none, LastAccessAddress := 0, LastAccessValue := 0,
    LastAccessWrite := false, LastAccessID := 0, accessCount := 0 }

/-- A memory state whose cartridge `Listen` always reports the
`UnwritableAddress` Atari error, as the plain Atari mappers do. -/
def unwritableCartMem : VCSMemory :=
  { zeroMem with listenErr := fun _ _ => some (.atari "unwritable address") }

end memory

namespace television

/-- An NTSC television, one renderer, with the beam at horizontal
position -60 (inside HBLANK but outside the HSYNC-on window). -/
def hsyncEarlyState : TVState :=
  { newBasicTelevision SpecNTSC 1 with horizPos := -60 }

/-- An NTSC television, no renderers, with the beam at the last visible
pixel of the scanline (horizontal position `ClocksPerVisible - 1`). -/
def lastPixelState : TVState :=
  { newBasicTelevision SpecNTSC 0 with horizPos := 159 }

/-- A small specification used to exercise the VSYNC logic: 2
color-clocks of VSYNC commit a frame. -/
def smallSpec : Specification :=
  { ClocksPerHblank := 3, ClocksPerVisible := 4, ScanlinesTotal := 5,
    VsyncClocks := 2, IdealTop := 0, IdealBottom := 5 }

/-- A freshly reset television on `smallSpec` with two renderers. -/
def smallState : TVState := newBasicTelevision smallSpec 2

/-- A signal with only VSYNC raised. -/
def vsyncSig : SignalAttributes := { VSync := true }

/-- The all-clear signal. -/
def zeroSig : SignalAttributes := {}

end television

namespace video

/-- A sprite resting at the last visible pixel with no pending
movement. -/
def spriteAt159 : Sprite := { currentPixel := 159, moreMovementRequired := false, horizMovement := 0 }

end video

/-!
# Theorems

One theorem per claim (with a counterexample theorem where the claim as
stated fails on the code, and a witness where the claim theorem has
hypotheses), preceded by the helper lemmas they share.
-/

/-- C2 (counterexample): the claimed iff fails on the code. For a
finalised page-sensitive non-branch instruction with the right byte
count, no page fault, no CPU bug, and an actual cycle count four above
base, `Result.IsValid` reports no error although the claim's condition
(cycle count equal to base, or base+1 only when page-crossed) does not
hold. -/
theorem isValid_claim_counterexample :
    execution.Result.IsValid execution.oddCyclesResult = none ∧
    execution.specIsValid execution.oddCyclesResult = false ∧
    execution.oddCyclesResult.Final = true := by
  decide

/-- C2 (amended): for a finalised result, `Result.IsValid` reports no
error iff there is no page fault on a page-insensitive definition, the
byte counts agree and, unless a CPU bug was flagged, the cycle count is
admissible: for a branch one of base, base+1 or base+2; for a
page-sensitive non-branch instruction the check applies only when a
page fault occurred (base or base+1 then); otherwise exactly base. -/
theorem isValid_characterisation (r : execution.Result) (h : r.Final = true) :
    r.IsValid = none ↔ execution.codeIsValid r = true := by
  obtain ⟨⟨opc, mne, bytes, cycles, ps, br⟩, bc, ac, pf, bug, fin⟩ := r
  simp only at h
  subst h
  simp only [execution.Result.IsValid, execution.codeIsValid]
  cases ps <;> cases br <;> cases pf <;>
    by_cases hbug : bug = "" <;>
    by_cases h1 : bc = bytes <;>
    by_cases h2 : ac = cycles <;>
    by_cases h3 : ac = cycles + 1 <;>
    by_cases h4 : ac = cycles + 2 <;>
    simp_all

/-- C2 (witness): the characterisation applied to a concrete taken
branch (BEQ, base 2 cycles, 3 actual). -/
theorem isValid_characterisation_witness :
    (execution.Result.IsValid
      { Defn := { OpCode := 0xf0, Mnemonic := "BEQ", Bytes := 2, Cycles := 2,
                  PageSensitive := false, IsBranch := true },
        ByteCount := 2, ActualCycles := 3, PageFault := false,
        CPUBug := "", Final := true } = none) := by
  exact (isValid_characterisation _ rfl).mpr (by decide)

/-- C3 (counterexample): reading mapped TIA address 0x0d (INPT5, which
has a data-bus mask entry) over a bus address at or below 0xff fills
the open-bus bits from the low byte of the bus address, not from its
high byte as the claim states: with all chips returning zero the read
yields 0x0d, while the claim's formula yields 0x00. -/
theorem read_open_bus_counterexample :
    (memory.zeroMem.Read 0x0d).1 = 0x0d ∧
    memory.specReadData memory.zeroMem 0x0d = 0x00 ∧
    (memory.zeroMem.Read 0x0d).1 ≠ memory.specReadData memory.zeroMem 0x0d := by
  decide

/-- C3 (amended): for every CPU read of a mapped address with a
data-bus mask entry, the returned byte combines the chip's data on the
bits set in the mask with bits of the bus address on the bits cleared
in the mask -- taken from the high byte of the bus address when the
address is above 0xff and from its low byte otherwise; an address with
no mask entry returns the chip's data unchanged. -/
theorem read_open_bus_characterisation (mem : memory.VCSMemory) (address : Nat) :
    ((memory.MapAddress address true).1 < memory.DataMasks.length →
      (mem.Read address).1 =
        ((mem.areaData (memory.MapAddress address true).2 (memory.MapAddress address true).1 &&&
            memory.DataMasks.getD (memory.MapAddress address true).1 0) |||
          (memory.openBusByte address &&&
            (memory.DataMasks.getD (memory.MapAddress address true).1 0 ^^^ 0xff)))) ∧
    (¬ (memory.MapAddress address true).1 < memory.DataMasks.length →
      (mem.Read address).1 =
        mem.areaData (memory.MapAddress address true).2 (memory.MapAddress address true).1) ∧
    (0xff < address →
      (mem.Read address).1 = memory.specReadData mem address) := by
  simp only [memory.VCSMemory.Read, memory.specReadData, memory.openBusByte]
  refine ⟨?_, ?_, ?_⟩ <;> intro h <;> split_ifs <;> simp_all

/-- C3 (witness): the characterisation applied to the masked read of
address 0x10d (mask entry present, address above 0xff) on the all-zero
memory. -/
theorem read_open_bus_characterisation_witness :
    (memory.MapAddress 0x10d true).1 < memory.DataMasks.length ∧
    (memory.zeroMem.Read 0x10d).1 =
      ((memory.zeroMem.areaData (memory.MapAddress 0x10d true).2 (memory.MapAddress 0x10d true).1 &&&
          memory.DataMasks.getD (memory.MapAddress 0x10d true).1 0) |||
        (memory.openBusByte 0x10d &&&
          (memory.DataMasks.getD (memory.MapAddress 0x10d true).1 0 ^^^ 0xff))) := by
  exact ⟨by decide, (read_open_bus_characterisation memory.zeroMem 0x10d).1 (by decide)⟩

/-- C4: every CPU write gives the cartridge's `Listen` the original
(pre-mapping) bus address before anything else on the bus, and when
`Listen` reports an Atari error (such as `UnwritableAddress`) that
error is discarded and the write to the mapped memory area still
proceeds, the write's result being whatever the area's own write
returns. -/
theorem write_listen_unwritable_proceeds (mem : memory.VCSMemory)
    (address data : Nat) (errno : String)
    (h : mem.listenErr address data = some (.atari errno)) :
    (mem.Write address data).1 =
      mem.areaWriteErr (memory.MapAddress address false).2
        (memory.MapAddress address false).1 data ∧
    (mem.Write address data).2.2 =
      [memory.MemEvent.listen address data,
       memory.MemEvent.areaWrite (memory.MapAddress address false).2
         (memory.MapAddress address false).1 data] := by
  simp [memory.VCSMemory.Write, h]

/-- C4 (witness): a write to cartridge space (0xf000) on a memory whose
cartridge reports `UnwritableAddress` for every `Listen`. -/
theorem write_listen_unwritable_proceeds_witness :
    (memory.unwritableCartMem.Write 0xf000 0xab).2.2 =
      [memory.MemEvent.listen 0xf000 0xab,
       memory.MemEvent.areaWrite (memory.MapAddress 0xf000 false).2
         (memory.MapAddress 0xf000 false).1 0xab] := by
  exact (write_listen_unwritable_proceeds memory.unwritableCartMem 0xf000 0xab
    "unwritable address" rfl).2

/-- C5 (code evaluated at the failing input): an HSYNC on-edge at
horizontal position -60 (outside the documented window [-52,-49]) makes
`Signal` return an `OutOfSpec` error immediately: the television state
is left untouched -- in particular its `outOfSpec` flag stays false --
and none of the remaining signal handling runs (no renderer calls, no
state change), contrary to the claim that the flag is set and
processing continues. -/
theorem hsync_edge_returns_error :
    television.Signal television.hsyncEarlyState { HSync := true } =
      (television.hsyncEarlyState, [],
        some (.outOfSpecErr "bad HSYNC (on at -60)")) ∧
    television.hsyncEarlyState.outOfSpec = false := by
  decide

/-- C7 (counterexample): `prepareForHMOVE` moves `currentPixel` 8
pixels right with no wrap, so a sprite at pixel 159 is left at 167,
outside the claimed 0..159 range. -/
theorem prepareForHMOVE_counterexample :
    (video.Sprite.prepareForHMOVE video.spriteAt159).currentPixel = 167 ∧
    ¬ (video.Sprite.prepareForHMOVE video.spriteAt159).currentPixel ≤ 159 := by
  decide

/-- C9: a 16-bit register built with initial value 0, after `Load(127)`
and `Add(2, carryIn=false)`, holds 129, prints as
`"0000000010000001"`, and the add reports no carry out. -/
theorem r16_load_add_scenario :
    (r16bit.Generate 0 16).value = 0 ∧
    ((r16bit.Register.Load (r16bit.Generate 0 16) 127).Add 2 false).1.value = 129 ∧
    ((r16bit.Register.Load (r16bit.Generate 0 16) 127).Add 2 false).1.binaryString =
      "0000000010000001" ∧
    ((r16bit.Register.Load (r16bit.Generate 0 16) 127).Add 2 false).2 = false := by
  refine ⟨rfl, rfl, ?_, rfl⟩
  decide

/-- Iterated `decWrap`: the effect of `n` extra HMOVE ticks on
`currentPixel` stays in the visible range. -/
theorem decWrapIter_range (n : Nat) (p : Int) (h0 : 0 ≤ p) (h1 : p ≤ 159) :
    0 ≤ video.decWrapIter n p ∧ video.decWrapIter n p ≤ 159 := by
  induction n generalizing p with
  | zero => exact ⟨h0, h1⟩
  | succ n ih =>
    have hd : 0 ≤ video.decWrap p ∧ video.decWrap p ≤ 159 := by
      unfold video.decWrap
      split <;> omega
    exact ih (video.decWrap p) hd.1 hd.2

/-- C7 (amended): the per-tick HMOVE movement preserves the 0..159
range: each extra tick issued by `resolveHMOVE` decrements
`currentPixel` by one, wrapping from 0 back to 159, and a tick that is
gated off leaves it unchanged; `forceHMOVE`'s immediate ticks also
preserve the range. `prepareForHMOVE`, by contrast, adds 8 with no
wrap (see the counterexample), so the claimed invariant holds for the
HMOVE ticking only. -/
theorem hmove_ticks_stay_in_range (sp : video.Sprite) (count : Nat)
    (h0 : 0 ≤ sp.currentPixel) (h1 : sp.currentPixel ≤ 159) :
    (0 ≤ (sp.resolveHMOVE count).currentPixel ∧
      (sp.resolveHMOVE count).currentPixel ≤ 159) ∧
    ((sp.moreMovementRequired &&
        video.compareBits (count &&& 0xff) (sp.horizMovement &&& 0xff)) = true →
      (sp.resolveHMOVE count).currentPixel =
        (if sp.currentPixel = 0 then 159 else sp.currentPixel - 1)) ∧
    ((sp.moreMovementRequired &&
        video.compareBits (count &&& 0xff) (sp.horizMovement &&& 0xff)) = false →
      (sp.resolveHMOVE count).currentPixel = sp.currentPixel) ∧
    (∀ adjustment : Int,
      0 ≤ (sp.forceHMOVE adjustment).currentPixel ∧
        (sp.forceHMOVE adjustment).currentPixel ≤ 159) := by
  refine ⟨?_, ?_, ?_, ?_⟩
  · by_cases hm : (sp.moreMovementRequired &&
        video.compareBits (count &&& 0xff) (sp.horizMovement &&& 0xff)) = true
    · simp only [video.Sprite.resolveHMOVE, hm, if_true]
      unfold video.decWrap
      split <;> constructor <;> omega
    · simp only [video.Sprite.resolveHMOVE, hm, if_false]
      exact ⟨h0, h1⟩
  · intro h
    simp only [video.Sprite.resolveHMOVE, h, if_true]
    unfold video.decWrap
    split <;> omega
  · intro h
    simp [video.Sprite.resolveHMOVE, h]
  · intro adjustment
    exact decWrapIter_range _ sp.currentPixel h0 h1

/-- C7 (witness): one gated-on HMOVE tick moves a sprite from pixel 0
to pixel 159. -/
theorem hmove_ticks_stay_in_range_witness :
    0 ≤ ({ currentPixel := 0, moreMovementRequired := true,
           horizMovement := 15 : video.Sprite}.resolveHMOVE 15).currentPixel ∧
    ({ currentPixel := 0, moreMovementRequired := true,
       horizMovement := 15 : video.Sprite}.resolveHMOVE 15).currentPixel ≤ 159 := by
  exact (hmove_ticks_stay_in_range _ 15 (by decide) (by decide)).1

/-- C6 (counterexample): with the beam at the last visible pixel
(`ClocksPerVisible - 1`) and a plain signal (no FRONTPORCH), `Signal`
succeeds and leaves the horizontal position at `ClocksPerVisible`,
outside the claimed `-ClocksPerHblank .. ClocksPerVisible-1` range: the
out-of-range check only fires past `ClocksPerVisible`. -/
theorem horizPos_exceeds_claimed_range :
    (television.Signal television.lastPixelState television.zeroSig).2.2 = none ∧
    (television.Signal television.lastPixelState television.zeroSig).1.horizPos =
      television.lastPixelState.spec.ClocksPerVisible ∧
    ¬ ((television.Signal television.lastPixelState television.zeroSig).1.horizPos ≤
        television.lastPixelState.spec.ClocksPerVisible - 1) := by
  decide

/-- C8: against the template `"TEST (arg [%N]|foo)"`, validating
`"TEST arg 10"` reports no error, and validating `"TEST arg bar"`
reports a `ValidationError` whose message is
`"unrecognised argument (bar)"`. -/
theorem validate_numeric_and_branch :
    commandline.Commands.Validate commandline.cmdsTEST "TEST arg 10" = none ∧
    commandline.Commands.Validate commandline.cmdsTEST "TEST arg bar" =
      some (.validation "unrecognised argument (bar)") := by
  decide

/-- `edgeError` reports nothing when the signal's HSYNC and CBURST
levels match the previous signal (no edges). -/
theorem edgeError_none_of_no_edge (s : television.TVState)
    (sig : television.SignalAttributes)
    (h1 : sig.HSync = s.prevSignal.HSync) (h2 : sig.CBurst = s.prevSignal.CBurst) :
    television.edgeError s sig = none := by
  unfold television.edgeError
  rw [h1, h2]
  cases s.prevSignal.HSync <;> cases s.prevSignal.CBurst <;> simp

/-- The VSYNC block never changes the specification, the horizontal
position, the renderer list or the previous-signal record. -/
theorem vsyncStage_preserved (s : television.TVState)
    (sig : television.SignalAttributes) :
    (television.vsyncStage s sig).1.spec = s.spec ∧
    (television.vsyncStage s sig).1.horizPos = s.horizPos ∧
    (television.vsyncStage s sig).1.numRenderers = s.numRenderers ∧
    (television.vsyncStage s sig).1.prevSignal = s.prevSignal := by
  unfold television.vsyncStage
  split_ifs <;> exact ⟨rfl, rfl, rfl, rfl⟩

/-- The screen-limit learning block only changes the pending visible
top/bottom. -/
theorem visibleLimitsStage_preserved (s : television.TVState)
    (sig : television.SignalAttributes) :
    (television.visibleLimitsStage s sig).spec = s.spec ∧
    (television.visibleLimitsStage s sig).horizPos = s.horizPos ∧
    (television.visibleLimitsStage s sig).frameNum = s.frameNum ∧
    (television.visibleLimitsStage s sig).scanline = s.scanline ∧
    (television.visibleLimitsStage s sig).vsyncCount = s.vsyncCount ∧
    (television.visibleLimitsStage s sig).numRenderers = s.numRenderers ∧
    (television.visibleLimitsStage s sig).endOfScreen = s.endOfScreen := by
  simp only [television.visibleLimitsStage]
  split_ifs <;> simp

/-- An edge error makes `Signal` return immediately with the state
untouched. -/
theorem Signal_edge_err (s : television.TVState)
    (sig : television.SignalAttributes) (e : television.TVErr)
    (hedge : television.edgeError s sig = some e) :
    television.Signal s sig = (s, [], some e) := by
  simp only [television.Signal, hedge]

/-- `Signal` in closed form when the edge checks pass and the
front-porch block succeeds. -/
theorem Signal_stages_ok (s : television.TVState)
    (sig : television.SignalAttributes)
    (btv2 : television.TVState) (evs2 : List television.TVEvent)
    (hedge : television.edgeError s sig = none)
    (hf : television.frontPorchStage (television.vsyncStage s sig).1 sig =
      (btv2, evs2, none)) :
    television.Signal s sig =
      ({ television.visibleLimitsStage btv2 sig with prevSignal := sig },
       (television.vsyncStage s sig).2 ++ evs2 ++
         television.pixelStage
           { television.visibleLimitsStage btv2 sig with prevSignal := sig } sig,
       none) := by
  simp only [television.Signal, hedge, hf]

/-- `Signal` in closed form when the edge checks pass and the
front-porch block errors out ("no FRONTPORCH"). -/
theorem Signal_stages_err (s : television.TVState)
    (sig : television.SignalAttributes)
    (btv2 : television.TVState) (evs2 : List television.TVEvent)
    (e : television.TVErr)
    (hedge : television.edgeError s sig = none)
    (hf : television.frontPorchStage (television.vsyncStage s sig).1 sig =
      (btv2, evs2, some e)) :
    television.Signal s sig = (btv2, (television.vsyncStage s sig).2 ++ evs2, some e) := by
  simp only [television.Signal, hedge, hf]

/-- The front-porch block on a FRONTPORCH signal: no error, horizontal
position reset, scanline incremented, one `NewScanline` per renderer,
all other counters untouched. -/
theorem frontPorchStage_true_shape (s : television.TVState)
    (sig : television.SignalAttributes) (hfp : sig.FrontPorch = true) :
    (television.frontPorchStage s sig).2.2 = none ∧
    (television.frontPorchStage s sig).1.horizPos = -s.spec.ClocksPerHblank ∧
    (television.frontPorchStage s sig).1.spec = s.spec ∧
    (television.frontPorchStage s sig).1.frameNum = s.frameNum ∧
    (television.frontPorchStage s sig).1.scanline = s.scanline + 1 ∧
    (television.frontPorchStage s sig).1.vsyncCount = s.vsyncCount ∧
    (television.frontPorchStage s sig).1.numRenderers = s.numRenderers ∧
    (television.frontPorchStage s sig).2.1 =
      (List.range s.numRenderers).map
        (fun r => television.TVEvent.newScanline r (s.scanline + 1)) := by
  simp only [television.frontPorchStage, hfp, if_true]
  split_ifs <;> simp

/-- The front-porch block on a non-FRONTPORCH signal that stays within
`ClocksPerVisible`: the horizontal position advances by one. -/
theorem frontPorchStage_false_ok (s : television.TVState)
    (sig : television.SignalAttributes) (hfp : sig.FrontPorch = false)
    (hcv : s.horizPos + 1 ≤ s.spec.ClocksPerVisible) :
    television.frontPorchStage s sig =
      ({ s with horizPos := s.horizPos + 1 }, [], none) := by
  simp only [television.frontPorchStage, hfp, Bool.false_eq_true, if_false]
  rw [if_neg]
  simp only [not_lt]
  exact hcv

/-- The front-porch block on a non-FRONTPORCH signal whose increment
passes `ClocksPerVisible`: the "no FRONTPORCH" error, with the
horizontal position already incremented. -/
theorem frontPorchStage_false_err (s : television.TVState)
    (sig : television.SignalAttributes) (hfp : sig.FrontPorch = false)
    (hcv : s.spec.ClocksPerVisible < s.horizPos + 1) :
    television.frontPorchStage s sig =
      ({ s with horizPos := s.horizPos + 1 }, [],
        some (.outOfSpecErr "no FRONTPORCH")) := by
  simp only [television.frontPorchStage, hfp, Bool.false_eq_true, if_false]
  rw [if_pos]
  exact hcv

/-- C6 (amended): under an edge-clean signal, every `Signal` call
either resets the horizontal position to `-ClocksPerHblank` (on
FRONTPORCH) or increments it by one, reporting an `OutOfSpec` error
exactly when the incremented position exceeds `ClocksPerVisible`; on
error-free calls the position stays within `-ClocksPerHblank ..
ClocksPerVisible` (the claimed upper bound `ClocksPerVisible-1` is one
too low -- see the counterexample). -/
theorem horizPos_reset_or_increment (s : television.TVState)
    (sig : television.SignalAttributes)
    (hedge : television.edgeError s sig = none)
    (hlow : -s.spec.ClocksPerHblank ≤ s.horizPos)
    (hspan : -s.spec.ClocksPerHblank ≤ s.spec.ClocksPerVisible) :
    (sig.FrontPorch = true →
      (television.Signal s sig).1.horizPos = -s.spec.ClocksPerHblank ∧
      (television.Signal s sig).2.2 = none) ∧
    (sig.FrontPorch = false →
      (television.Signal s sig).1.horizPos = s.horizPos + 1 ∧
      ((television.Signal s sig).2.2 = none ↔
        s.horizPos + 1 ≤ s.spec.ClocksPerVisible)) ∧
    ((television.Signal s sig).2.2 = none →
      -s.spec.ClocksPerHblank ≤ (television.Signal s sig).1.horizPos ∧
      (television.Signal s sig).1.horizPos ≤ s.spec.ClocksPerVisible) := by
  obtain ⟨hspec, hpos, hren, hprev⟩ := vsyncStage_preserved s sig
  have main : (sig.FrontPorch = true →
      (television.Signal s sig).1.horizPos = -s.spec.ClocksPerHblank ∧
      (television.Signal s sig).2.2 = none) ∧
    (sig.FrontPorch = false →
      (television.Signal s sig).1.horizPos = s.horizPos + 1 ∧
      ((television.Signal s sig).2.2 = none ↔
        s.horizPos + 1 ≤ s.spec.ClocksPerVisible)) := by
    constructor
    · intro hfp
      have hsh := frontPorchStage_true_shape (television.vsyncStage s sig).1 sig hfp
      have hf : television.frontPorchStage (television.vsyncStage s sig).1 sig =
          ((television.frontPorchStage (television.vsyncStage s sig).1 sig).1,
           (television.frontPorchStage (television.vsyncStage s sig).1 sig).2.1,
           (television.frontPorchStage (television.vsyncStage s sig).1 sig).2.2) := rfl
      rw [hsh.1] at hf
      rw [Signal_stages_ok s sig _ _ hedge hf]
      have hvl := visibleLimitsStage_preserved
        (television.frontPorchStage (television.vsyncStage s sig).1 sig).1 sig
      constructor
      · show (television.visibleLimitsStage _ sig).horizPos = _
        rw [hvl.2.1, hsh.2.1, hspec]
      · rfl
    · intro hfp
      rcases le_or_lt ((television.vsyncStage s sig).1.horizPos + 1)
          (television.vsyncStage s sig).1.spec.ClocksPerVisible with hcv | hcv
      · have hf := frontPorchStage_false_ok (television.vsyncStage s sig).1 sig hfp hcv
        rw [Signal_stages_ok s sig _ _ hedge hf]
        have hvl := visibleLimitsStage_preserved
          { (television.vsyncStage s sig).1 with
              horizPos := (television.vsyncStage s sig).1.horizPos + 1 } sig
        rw [hspec, hpos] at hcv
        constructor
        · show (television.visibleLimitsStage _ sig).horizPos = _
          rw [hvl.2.1]
          simp [hpos]
        · simp [hcv]
      · have hf := frontPorchStage_false_err (television.vsyncStage s sig).1 sig hfp hcv
        rw [Signal_stages_err s sig _ _ _ hedge hf]
        rw [hspec, hpos] at hcv
        constructor
        · simp [hpos]
        · simp
          omega
  refine ⟨main.1, main.2, ?_⟩
  intro hok
  cases hfp : sig.FrontPorch with
  | true =>
    obtain ⟨ha, _⟩ := main.1 hfp
    omega
  | false =>
    obtain ⟨ha, hb⟩ := main.2 hfp
    have := hb.mp hok
    omega

/-- C6 (witness): a plain signal on a fresh NTSC television advances
the horizontal position from -68 to -67 with no error. -/
theorem horizPos_reset_or_increment_witness :
    (television.Signal (television.newBasicTelevision television.SpecNTSC 0)
      television.zeroSig).1.horizPos =
      (television.newBasicTelevision television.SpecNTSC 0).horizPos + 1 := by
  exact ((horizPos_reset_or_increment
    (television.newBasicTelevision television.SpecNTSC 0) television.zeroSig
    (by decide) (by decide) (by decide)).2.1 rfl).1

/-- The VSYNC block while the VSYNC signal is held: the consecutive
color-clock count advances, nothing else happens. -/
theorem vsyncStage_inc (s : television.TVState)
    (sig : television.SignalAttributes) (hv : sig.VSync = true) :
    television.vsyncStage s sig =
      ({ s with vsyncCount := s.vsyncCount + 1 }, []) := by
  simp [television.vsyncStage, hv]

/-- The VSYNC block when the VSYNC signal drops after being sustained
for at least `VsyncClocks` color-clocks: the frame is committed and
each renderer is sent `NewFrame` once. -/
theorem vsyncStage_commit (s : television.TVState)
    (sig : television.SignalAttributes) (hv : sig.VSync = false)
    (hge : s.spec.VsyncClocks ≤ s.vsyncCount) :
    television.vsyncStage s sig =
      ({ s with
          outOfSpec := s.vsyncCount != s.spec.VsyncClocks,
          endOfScreen := false,
          frameNum := s.frameNum + 1,
          scanline := 0,
          vsyncCount := 0,
          visibleTop := s.pendingVisibleTop,
          visibleBottom := s.pendingVisibleBottom,
          pendingVisibleTop := s.spec.IdealTop,
          pendingVisibleBottom := s.spec.IdealBottom },
       (List.range s.numRenderers).map
         (fun r => television.TVEvent.newFrame r (s.frameNum + 1))) := by
  simp [television.vsyncStage, hv, hge]

/-- Pixel events are never `NewFrame` calls. -/
theorem pixelStage_no_newFrame (s : television.TVState)
    (sig : television.SignalAttributes) :
    (television.pixelStage s sig).filter television.isNewFrame = [] := by
  rw [List.filter_eq_nil_iff]
  intro a ha
  simp only [television.pixelStage] at ha
  by_cases h : s.endOfScreen = false
  · simp only [h, Bool.not_false, if_true] at ha
    rcases List.mem_append.mp ha with hm | hm <;>
      · obtain ⟨j, _, rfl⟩ := List.mem_map.mp hm
        simp [television.isNewFrame]
  · have : s.endOfScreen = true := by
      cases he : s.endOfScreen <;> simp_all
    simp [this] at ha

/-- `NewScanline` events are never `NewFrame` calls. -/
theorem scanline_events_no_newFrame (n : Nat) (x : Int) :
    ((List.range n).map
      (fun j => television.TVEvent.newScanline j x)).filter television.isNewFrame = [] := by
  rw [List.filter_eq_nil_iff]
  intro a ha
  obtain ⟨j, _, rfl⟩ := List.mem_map.mp ha
  simp [television.isNewFrame]

/-- A renderer-indexed `NewFrame` filter is empty whenever the
constructor-level filter is. -/
theorem no_newFrame_events (evs : List television.TVEvent) (r : Nat)
    (h : evs.filter television.isNewFrame = []) :
    evs.filter (television.isNewFrameFor r) = [] := by
  rw [List.filter_eq_nil_iff] at h ⊢
  intro a ha
  have := h a ha
  cases a <;> simp_all [television.isNewFrame, television.isNewFrameFor]

/-- How many members of `range n` equal `r`. -/
theorem filter_beq_range_length (r n : Nat) :
    ((List.range n).filter (fun j => j == r)).length = if r < n then 1 else 0 := by
  induction n with
  | zero => simp
  | succ n ih =>
    rw [List.range_succ, List.filter_append, List.length_append, ih]
    by_cases h : n = r
    · subst h
      rw [show List.filter (fun j => j == n) [n] = [n] from by simp]
      simp only [List.length_cons, List.length_nil]
      split_ifs <;> omega
    · have hb : ((n : Nat) == r) = false := by simp [h]
      rw [show List.filter (fun j => j == r) [n] = [] from by simp [hb]]
      simp only [List.length_nil]
      split_ifs <;> omega

/-- Each renderer `r < n` receives exactly one `NewFrame` from the
commit block's renderer loop, and renderers outside the list none. -/
theorem newFrameCount_range (r n : Nat) (fn : Int) :
    television.newFrameCount r
      ((List.range n).map (fun j => television.TVEvent.newFrame j fn)) =
      if r < n then 1 else 0 := by
  unfold television.newFrameCount
  rw [List.filter_map, List.length_map]
  have h : (television.isNewFrameFor r ∘ fun j => television.TVEvent.newFrame j fn) =
      fun j => j == r := by
    funext j
    rfl
  rw [h, filter_beq_range_length]

/-- One error-free `Signal` call with VSYNC held: the consecutive-clock
count advances by one, the frame number does not move, and no renderer
is sent `NewFrame`. -/
theorem Signal_held_step (s : television.TVState)
    (sig : television.SignalAttributes) (hv : sig.VSync = true)
    (hok : (television.Signal s sig).2.2 = none) :
    (television.Signal s sig).1.vsyncCount = s.vsyncCount + 1 ∧
    (television.Signal s sig).1.frameNum = s.frameNum ∧
    (television.Signal s sig).1.spec = s.spec ∧
    (television.Signal s sig).1.numRenderers = s.numRenderers ∧
    (television.Signal s sig).2.1.filter television.isNewFrame = [] := by
  cases hedge : television.edgeError s sig with
  | some e =>
    rw [Signal_edge_err s sig e hedge] at hok
    simp at hok
  | none =>
    have hvs := vsyncStage_inc s sig hv
    have h1 : (television.vsyncStage s sig).1 = { s with vsyncCount := s.vsyncCount + 1 } := by
      rw [hvs]
    have h2 : (television.vsyncStage s sig).2 = [] := by
      rw [hvs]
    cases hfp : sig.FrontPorch with
    | true =>
      obtain ⟨e1, e2, e3, e4, e5, e6, e7, e8⟩ :=
        frontPorchStage_true_shape (television.vsyncStage s sig).1 sig hfp
      have hf : television.frontPorchStage (television.vsyncStage s sig).1 sig =
          ((television.frontPorchStage (television.vsyncStage s sig).1 sig).1,
           (television.frontPorchStage (television.vsyncStage s sig).1 sig).2.1,
           (television.frontPorchStage (television.vsyncStage s sig).1 sig).2.2) := rfl
      rw [e1] at hf
      rw [Signal_stages_ok s sig _ _ hedge hf]
      have hvl := visibleLimitsStage_preserved
        (television.frontPorchStage (television.vsyncStage s sig).1 sig).1 sig
      refine ⟨?_, ?_, ?_, ?_, ?_⟩
      · show (television.visibleLimitsStage _ _).vsyncCount = _
        rw [hvl.2.2.2.2.1, e6, h1]
      · show (television.visibleLimitsStage _ _).frameNum = _
        rw [hvl.2.2.1, e4, h1]
      · show (television.visibleLimitsStage _ _).spec = _
        rw [hvl.1, e3, h1]
      · show (television.visibleLimitsStage _ _).numRenderers = _
        rw [hvl.2.2.2.2.2.1, e7, h1]
      · show List.filter _ (_ ++ _ ++ _) = _
        rw [List.filter_append, List.filter_append, h2, e8,
          scanline_events_no_newFrame, pixelStage_no_newFrame]
        rfl
    | false =>
      rcases le_or_lt ((television.vsyncStage s sig).1.horizPos + 1)
          (television.vsyncStage s sig).1.spec.ClocksPerVisible with hcv | hcv
      · have hf := frontPorchStage_false_ok (television.vsyncStage s sig).1 sig hfp hcv
        rw [Signal_stages_ok s sig _ _ hedge hf]
        have hvl := visibleLimitsStage_preserved
          { (television.vsyncStage s sig).1 with
              horizPos := (television.vsyncStage s sig).1.horizPos + 1 } sig
        refine ⟨?_, ?_, ?_, ?_, ?_⟩
        · show (television.visibleLimitsStage _ _).vsyncCount = _
          rw [hvl.2.2.2.2.1]
          rw [h1]
        · show (television.visibleLimitsStage _ _).frameNum = _
          rw [hvl.2.2.1]
          rw [h1]
        · show (television.visibleLimitsStage _ _).spec = _
          rw [hvl.1]
          rw [h1]
        · show (television.visibleLimitsStage _ _).numRenderers = _
          rw [hvl.2.2.2.2.2.1]
          rw [h1]
        · show List.filter _ (_ ++ _ ++ _) = _
          rw [List.filter_append, List.filter_append, h2, pixelStage_no_newFrame]
          rfl
      · have hf := frontPorchStage_false_err (television.vsyncStage s sig).1 sig hfp hcv
        rw [Signal_stages_err s sig _ _ _ hedge hf] at hok
        simp at hok

/-- Error-free `Signal` calls with VSYNC held throughout: the
consecutive-clock count grows by the number of calls, the frame number
never moves, and no renderer is sent `NewFrame`. -/
theorem signalRun_held (s : television.TVState)
    (sigs : List television.SignalAttributes)
    (hall : ∀ sig ∈ sigs, sig.VSync = true)
    (hok : (television.signalRun s sigs).2.2 = none) :
    (television.signalRun s sigs).1.vsyncCount = s.vsyncCount + (sigs.length : Int) ∧
    (television.signalRun s sigs).1.frameNum = s.frameNum ∧
    (television.signalRun s sigs).1.spec = s.spec ∧
    (television.signalRun s sigs).1.numRenderers = s.numRenderers ∧
    (television.signalRun s sigs).2.1.filter television.isNewFrame = [] := by
  induction sigs generalizing s with
  | nil =>
    simp [television.signalRun]
  | cons sig rest ih =>
    have hv : sig.VSync = true := hall sig (List.mem_cons_self sig rest)
    rcases hS : television.Signal s sig with ⟨s1, evs, err⟩
    cases err with
    | some e =>
      rw [television.signalRun, hS] at hok
      simp at hok
    | none =>
      have hok1 : (television.Signal s sig).2.2 = none := by
        rw [hS]
      obtain ⟨c1, c2, c3, c4, c5⟩ := Signal_held_step s sig hv hok1
      rw [hS] at c1 c2 c3 c4 c5
      simp only at c1 c2 c3 c4 c5
      have hokrest : (television.signalRun s1 rest).2.2 = none := by
        rw [television.signalRun, hS] at hok
        simpa using hok
      obtain ⟨d1, d2, d3, d4, d5⟩ :=
        ih s1 (fun x hx => hall x (List.mem_cons_of_mem sig hx)) hokrest
      rw [television.signalRun, hS]
      simp only
      refine ⟨?_, ?_, ?_, ?_, ?_⟩
      · rw [d1, c1]
        simp only [List.length_cons]
        push_cast
        ring
      · rw [d2, c2]
      · rw [d3, c3]
      · rw [d4, c4]
      · rw [List.filter_append, c5, d5]
        rfl

/-- The commit `Signal` call: VSYNC dropped after being sustained for
at least `VsyncClocks` clocks, no HSYNC/CBURST edge, no FRONTPORCH,
and the horizontal step in range: the call succeeds, the frame number
advances by one, the scanline resets to zero, and each registered
renderer is sent `NewFrame` exactly once. -/
theorem Signal_commit (s : television.TVState)
    (rel : television.SignalAttributes)
    (hge : s.spec.VsyncClocks ≤ s.vsyncCount)
    (hv : rel.VSync = false) (hfp : rel.FrontPorch = false)
    (hedge : television.edgeError s rel = none)
    (hhp : s.horizPos + 1 ≤ s.spec.ClocksPerVisible) :
    (television.Signal s rel).2.2 = none ∧
    (television.Signal s rel).1.frameNum = s.frameNum + 1 ∧
    (television.Signal s rel).1.scanline = 0 ∧
    ∀ r, television.newFrameCount r (television.Signal s rel).2.1 =
      if r < s.numRenderers then 1 else 0 := by
  have hvs := vsyncStage_commit s rel hv hge
  have h1 : (television.vsyncStage s rel).1.horizPos + 1 ≤
      (television.vsyncStage s rel).1.spec.ClocksPerVisible := by
    rw [hvs]
    exact hhp
  have hf := frontPorchStage_false_ok (television.vsyncStage s rel).1 rel hfp h1
  rw [Signal_stages_ok s rel _ _ hedge hf]
  have hvl := visibleLimitsStage_preserved
    { (television.vsyncStage s rel).1 with
        horizPos := (television.vsyncStage s rel).1.horizPos + 1 } rel
  refine ⟨rfl, ?_, ?_, ?_⟩
  · show (television.visibleLimitsStage _ _).frameNum = _
    rw [hvl.2.2.1]
    rw [hvs]
  · show (television.visibleLimitsStage _ _).scanline = _
    rw [hvl.2.2.2.1]
    rw [hvs]
  · intro r
    show television.newFrameCount r ((television.vsyncStage s rel).2 ++ [] ++ _) = _
    unfold television.newFrameCount
    rw [List.filter_append, List.filter_append, List.length_append, List.length_append]
    rw [no_newFrame_events _ r (pixelStage_no_newFrame _ _)]
    have h2 : (television.vsyncStage s rel).2 =
        (List.range s.numRenderers).map
          (fun j => television.TVEvent.newFrame j (s.frameNum + 1)) := by
      rw [hvs]
    rw [h2]
    have h3 := newFrameCount_range r s.numRenderers (s.frameNum + 1)
    unfold television.newFrameCount at h3
    rw [h3]
    simp

/-- C1: a VSYNC held across at least `spec.VsyncClocks` consecutive
error-free color-clocks advances the frame by exactly one when it
drops: the commit `Signal` call succeeds, resets the scanline to zero,
and sends every registered renderer exactly one `NewFrame`
notification, none having been sent while the VSYNC was held. -/
theorem vsync_sustained_advances_frame (s : television.TVState)
    (sigs : List television.SignalAttributes)
    (rel : television.SignalAttributes)
    (hv0 : s.vsyncCount = 0)
    (hall : ∀ sig ∈ sigs, sig.VSync = true)
    (hlen : s.spec.VsyncClocks ≤ (sigs.length : Int))
    (hok : (television.signalRun s sigs).2.2 = none)
    (hrv : rel.VSync = false) (hrf : rel.FrontPorch = false)
    (hrh : rel.HSync = (television.signalRun s sigs).1.prevSignal.HSync)
    (hrc : rel.CBurst = (television.signalRun s sigs).1.prevSignal.CBurst)
    (hhp : (television.signalRun s sigs).1.horizPos + 1 ≤ s.spec.ClocksPerVisible) :
    (television.Signal (television.signalRun s sigs).1 rel).2.2 = none ∧
    (television.Signal (television.signalRun s sigs).1 rel).1.frameNum = s.frameNum + 1 ∧
    (television.Signal (television.signalRun s sigs).1 rel).1.scanline = 0 ∧
    (∀ r, r < s.numRenderers →
      television.newFrameCount r
        (television.Signal (television.signalRun s sigs).1 rel).2.1 = 1) ∧
    (television.signalRun s sigs).2.1.filter television.isNewFrame = [] := by
  obtain ⟨hcount, hframe, hspec, hren, hnf⟩ := signalRun_held s sigs hall hok
  have hge : (television.signalRun s sigs).1.spec.VsyncClocks ≤
      (television.signalRun s sigs).1.vsyncCount := by
    rw [hspec, hcount, hv0]
    simpa using hlen
  have hedge := edgeError_none_of_no_edge (television.signalRun s sigs).1 rel hrh hrc
  have hhp' : (television.signalRun s sigs).1.horizPos + 1 ≤
      (television.signalRun s sigs).1.spec.ClocksPerVisible := by
    rw [hspec]
    exact hhp
  obtain ⟨e1, e2, e3, e4⟩ :=
    Signal_commit (television.signalRun s sigs).1 rel hge hrv hrf hedge hhp'
  refine ⟨e1, ?_, e3, ?_, hnf⟩
  · rw [e2, hframe]
  · intro r hr
    rw [e4 r, hren]
    simp [hr]

/-- C1 (witness): on a small specification (`VsyncClocks` = 2) with two
renderers, two held VSYNC clocks followed by a release advance the
frame. -/
theorem vsync_sustained_advances_frame_witness :
    (television.Signal
      (television.signalRun television.smallState
        [television.vsyncSig, television.vsyncSig]).1 television.zeroSig).1.frameNum =
      television.smallState.frameNum + 1 := by
  exact (vsync_sustained_advances_frame television.smallState
    [television.vsyncSig, television.vsyncSig] television.zeroSig
    (by decide) (by decide) (by decide) (by decide) (by decide) (by decide)
    (by decide) (by decide) (by decide)).2.1

/-- The palette-building fold appends each mapped color twice: it
produces the duplication of the mapped list. -/
theorem buildPalette_eq_dup (raw : List Nat) :
    colors.buildPalette raw = colors.dup (raw.map colors.rgbOf) := by
  suffices h : ∀ (l : List Nat) (acc : List colors.RGB),
      l.foldl (fun acc col => acc ++ [colors.rgbOf col, colors.rgbOf col]) acc =
        acc ++ colors.dup (l.map colors.rgbOf) by
    simpa [colors.buildPalette] using h raw []
  intro l
  induction l with
  | nil => intro acc; simp [colors.dup]
  | cons x xs ih =>
    intro acc
    simp [List.foldl_cons, ih, colors.dup]

/-- Indexing a duplicated list: positions `2i` and `2i+1` both hold
element `i` of the original list. -/
theorem dup_get_pair {α : Type} :
    ∀ (l : List α) (i : Nat),
      (colors.dup l).get? (2 * i) = l.get? i ∧
        (colors.dup l).get? (2 * i + 1) = l.get? i
  | [], i => by simp [colors.dup]
  | x :: xs, 0 => by simp [colors.dup]
  | x :: xs, i + 1 => by
    have h : 2 * (i + 1) = 2 * i + 1 + 1 := by ring
    have ih := dup_get_pair xs i
    simp only [colors.dup, h, List.get?_cons_succ]
    exact ⟨ih.1, ih.2⟩

/-- C10: in the NTSC and PAL palettes constructed at start-up every raw
color is appended twice in consecutive positions, so palette entries at
an even index and its successor are equal -- the least-significant bit
of a color-signal index never changes the RGB triple. -/
theorem palette_duplicate_pairs (i : Nat) (hi : i % 2 = 0) :
    (i + 1 < colors.PaletteNTSC.length →
      colors.PaletteNTSC.get? i = colors.PaletteNTSC.get? (i + 1)) ∧
    (i + 1 < colors.PalettePAL.length →
      colors.PalettePAL.get? i = colors.PalettePAL.get? (i + 1)) := by
  obtain ⟨k, hk⟩ : ∃ k, i = 2 * k := ⟨i / 2, by omega⟩
  subst hk
  constructor <;> intro _
  · have h := dup_get_pair (colors.ntsc32bit.map colors.rgbOf) k
    simp only [colors.PaletteNTSC, buildPalette_eq_dup]
    rw [h.1, h.2]
  · have h := dup_get_pair (colors.pal32bit.map colors.rgbOf) k
    simp only [colors.PalettePAL, buildPalette_eq_dup]
    rw [h.1, h.2]

set_option maxRecDepth 4000 in
/-- C10 (witness): entries 2 and 3 of both palettes agree. -/
theorem palette_duplicate_pairs_witness :
    colors.PaletteNTSC.get? 2 = colors.PaletteNTSC.get? 3 ∧
    colors.PalettePAL.get? 2 = colors.PalettePAL.get? 3 := by
  exact ⟨(palette_duplicate_pairs 2 rfl).1 (by decide),
    (palette_duplicate_pairs 2 rfl).2 (by decide)⟩

end Gopher2600
